import Mathlib

/-!
Verification of the Lingua Franca RTI (runtime infrastructure) coordinator,
embedded from `src/xtext/org.icyphy.linguafranca/src/lib/core/rti.h`.

The header file defines the wire-protocol message-type bytes, the rejection
codes, the federate state enumeration and the per-federate record.  The
coordinator algorithms themselves (time-advance grants, stop negotiation,
join handshake, clock synchronization) are declared and documented by the
header but their implementation file is not part of the sources; those
algorithms are modelled here from the specification, as marked on each
definition.
-/

/-! ## Wire-protocol message type bytes (rti.h lines 112-329) -/

/-- Byte identifying a rejection of the previously received message (rti.h). -/
def REJECT : Nat := 0

/-- Byte identifying an acknowledgment; followed by the 4-byte UDP port or -1 (rti.h). -/
def ACK : Nat := 255

/-- Byte identifying the join message from a federate carrying the federation ID
and the federate ID (rti.h). -/
def FED_ID : Nat := 1

/-- Byte identifying a timestamp message, 64 bits long (rti.h). -/
def TIMESTAMP : Nat := 2

/-- Byte identifying an untimed message to forward to another federate (rti.h).
The header notes this type is currently not used: all messages are timed, even
on physical connections. -/
def MESSAGE : Nat := 3

/-- Byte identifying that the federate is ending its execution (rti.h). -/
def RESIGN : Nat := 4

/-- Byte identifying a timestamped message to forward to another federate (rti.h). -/
def TIMED_MESSAGE : Nat := 5

/-- Byte identifying a next event tag (NET) message sent from a federate (rti.h). -/
def NEXT_EVENT_TIME : Nat := 6

/-- Byte identifying a time advance grant (TAG) sent to a federate (rti.h). -/
def TIME_ADVANCE_GRANT : Nat := 7

/-- Byte identifying a logical tag complete (LTC) message sent by a federate (rti.h). -/
def LOGICAL_TIME_COMPLETE : Nat := 8

/-- Byte identifying a stop request (rti.h). -/
def STOP_REQUEST : Nat := 9

/-- Byte identifying a federate's reply to a STOP_REQUEST (rti.h). -/
def STOP_REQUEST_REPLY : Nat := 10

/-- Byte sent by the RTI indicating that the stop request has been granted (rti.h). -/
def STOP_GRANTED : Nat := 11

/-- Byte identifying an address query message (rti.h). -/
def ADDRESS_QUERY : Nat := 12

/-- Byte identifying a message advertising the port for the physical connection
server of a federate (rti.h). -/
def ADDRESS_AD : Nat := 13

/-- Byte identifying the first message sent federate-to-federate on a direct
socket connection (rti.h). -/
def P2P_SENDING_FED_ID : Nat := 14

/-- Byte identifying a message to send directly to another federate (rti.h). -/
def P2P_MESSAGE : Nat := 15

/-- Byte identifying a timestamped message to send directly to another federate (rti.h). -/
def P2P_TIMED_MESSAGE : Nat := 16

/-- Byte identifying the clock synchronization message T1 (rti.h). -/
def PHYSICAL_CLOCK_SYNC_MESSAGE_T1 : Nat := 17

/-- Byte identifying the clock synchronization message T3, which prompts the
master to send a T4 (rti.h). -/
def PHYSICAL_CLOCK_SYNC_MESSAGE_T3 : Nat := 18

/-- Byte identifying the clock synchronization message T4 (rti.h). -/
def PHYSICAL_CLOCK_SYNC_MESSAGE_T4 : Nat := 19

/-- Byte identifying the coded probe message sent right after T4 (rti.h). -/
def PHYSICAL_CLOCK_SYNC_MESSAGE_T4_CODED_PROBE : Nat := 20

/-! ## Rejection codes (rti.h lines 340-353) -/

/-- Rejection code: federation ID does not match (rti.h). -/
def FEDERATION_ID_DOES_NOT_MATCH : Nat := 1

/-- Rejection code: federate with the specified ID has already joined (rti.h). -/
def FEDERATE_ID_IN_USE : Nat := 2

/-- Rejection code: federate ID out of range (rti.h). -/
def FEDERATE_ID_OUT_OF_RANGE : Nat := 3

/-- Rejection code: incoming message is not expected (rti.h). -/
def UNEXPECTED_MESSAGE : Nat := 4

/-- Rejection code: connected to the wrong server (rti.h). -/
def WRONG_SERVER : Nat := 5

/-! ## Federate state enumeration (rti.h lines 369-374) -/

/-- State of a federate during execution, embedded from the C enum
`fed_state_t` in rti.h, which lists exactly the members
`NOT_CONNECTED`, `GRANTED` and `PENDING`. -/
inductive fed_state_t where
  | NOT_CONNECTED
  | GRANTED
  | PENDING
deriving DecidableEq, Fintype, Repr

/-! ## Clock synchronization message payloads (rti.h lines 301-329)

The payload of each clock-sync message, as documented in rti.h: T1 and T4
carry an 8-byte timestamp; T3 carries the 4-byte id of the sending federate
("Prompts the master to send a T4. The next four bytes will be the sending
federate's id"); the coded probe carries an 8-byte timestamp. -/

/-- Field kinds occurring in clock synchronization payloads. -/
inductive SyncField where
  | timestamp
  | senderId
deriving DecidableEq, Repr

/-- Size in bytes of each clock synchronization payload field: timestamps are
8 bytes, the sender federate id is 4 bytes (rti.h). -/
def syncFieldSize : SyncField → Nat
  | .timestamp => 8
  | .senderId => 4

/-- Payload of PHYSICAL_CLOCK_SYNC_MESSAGE_T1: an 8-byte timestamp (rti.h lines 301-305). -/
def clockSyncT1Payload : List SyncField := [.timestamp]

/-- Payload of PHYSICAL_CLOCK_SYNC_MESSAGE_T3: the 4-byte sending federate id
(rti.h lines 307-311). -/
def clockSyncT3Payload : List SyncField := [.senderId]

/-- Payload of PHYSICAL_CLOCK_SYNC_MESSAGE_T4: an 8-byte timestamp (rti.h lines 313-317). -/
def clockSyncT4Payload : List SyncField := [.timestamp]

/-- Payload of the coded probe following T4: an 8-byte timestamp (rti.h lines 319-329). -/
def clockSyncCodedProbePayload : List SyncField := [.timestamp]

/-! ## Claims C6, C7, C8 -/

/-- C6: every wire-protocol constant equals the value given in the spec tables:
message type bytes REJECT=0, JOIN=1, TIMESTAMP=2, MESSAGE=3, RESIGN=4,
TIMED_MESSAGE=5, NEXT_EVENT_TIME=6, TIME_ADVANCE_GRANT=7, LOGICAL_TIME_COMPLETE=8,
STOP_REQUEST=9, STOP_REQUEST_REPLY=10, STOP_GRANTED=11, ADDRESS_QUERY=12,
ADDRESS_AD=13, P2P_SENDING_FED_ID=14, P2P_MESSAGE=15, P2P_TIMED_MESSAGE=16,
clock-sync T1/T3/T4 = 17/18/19, coded probe = 20, ACK=255, and reject reason
codes 1 (federation id mismatch) through 5 (wrong server). -/
theorem claim_C6_protocol_constants :
    REJECT = 0 ∧ FED_ID = 1 ∧ TIMESTAMP = 2 ∧ MESSAGE = 3 ∧ RESIGN = 4 ∧
    TIMED_MESSAGE = 5 ∧ NEXT_EVENT_TIME = 6 ∧ TIME_ADVANCE_GRANT = 7 ∧
    LOGICAL_TIME_COMPLETE = 8 ∧ STOP_REQUEST = 9 ∧ STOP_REQUEST_REPLY = 10 ∧
    STOP_GRANTED = 11 ∧ ADDRESS_QUERY = 12 ∧ ADDRESS_AD = 13 ∧
    P2P_SENDING_FED_ID = 14 ∧ P2P_MESSAGE = 15 ∧ P2P_TIMED_MESSAGE = 16 ∧
    PHYSICAL_CLOCK_SYNC_MESSAGE_T1 = 17 ∧ PHYSICAL_CLOCK_SYNC_MESSAGE_T3 = 18 ∧
    PHYSICAL_CLOCK_SYNC_MESSAGE_T4 = 19 ∧
    PHYSICAL_CLOCK_SYNC_MESSAGE_T4_CODED_PROBE = 20 ∧ ACK = 255 ∧
    FEDERATION_ID_DOES_NOT_MATCH = 1 ∧ FEDERATE_ID_IN_USE = 2 ∧
    FEDERATE_ID_OUT_OF_RANGE = 3 ∧ UNEXPECTED_MESSAGE = 4 ∧ WRONG_SERVER = 5 := by
  decide

/-- C7 counterexample: the claim states that the T3 clock-sync message carries
an 8-byte timestamp in addition to the 4-byte sender federate id.  In rti.h the
T3 payload is documented as the 4-byte sending federate id only: it contains no
timestamp field and its payload size is 4 bytes, not 12. -/
theorem claim_C7_counterexample :
    SyncField.timestamp ∉ clockSyncT3Payload ∧
    (clockSyncT3Payload.map syncFieldSize).sum = 4 ∧
    (clockSyncT3Payload.map syncFieldSize).sum ≠ 12 := by
  decide

/-- C7 (amended): the clock-sync T3 message (type byte 18) carries only a
4-byte sender federate id and no timestamp, while T1, T4 and the coded probe
each carry an 8-byte timestamp. -/
theorem claim_C7_t3_payload :
    PHYSICAL_CLOCK_SYNC_MESSAGE_T3 = 18 ∧
    clockSyncT3Payload = [SyncField.senderId] ∧
    syncFieldSize SyncField.senderId = 4 ∧
    clockSyncT1Payload = [SyncField.timestamp] ∧
    clockSyncT4Payload = [SyncField.timestamp] ∧
    clockSyncCodedProbePayload = [SyncField.timestamp] ∧
    syncFieldSize SyncField.timestamp = 8 := by
  decide

/-- C8 counterexample: the claim states that the federate state type has a
RESIGNED member in addition to NOT_CONNECTED, GRANTED and PENDING, which would
make it a four-element type; the C enum `fed_state_t` has exactly three
members. -/
theorem claim_C8_counterexample : Fintype.card fed_state_t ≠ 4 := by
  decide

/-- C8 (amended): the federate state type `fed_state_t` consists of exactly
the three states NOT_CONNECTED, GRANTED and PENDING; there is no RESIGNED
member, so resignation is not represented as a state of this enumeration. -/
theorem claim_C8_fed_states :
    Fintype.card fed_state_t = 3 ∧
    ∀ s : fed_state_t,
      s = fed_state_t.NOT_CONNECTED ∨ s = fed_state_t.GRANTED ∨ s = fed_state_t.PENDING := by
  exact ⟨by decide, fun s => by cases s <;> simp⟩

/-! ## Logical tags

A tag is a pair (timestamp: signed 64-bit nanoseconds, microstep) ordered
lexicographically, with a sentinel NEVER below every tag (rti.h federate_t:
`tag_t completed; tag_t next_event;` each "or NEVER"). -/

/-- Logical tag: (timestamp, microstep), compared lexicographically. -/
abbrev Tag := Int ×ₗ Nat

/-- Construct a tag from a timestamp and a microstep. -/
def Tag.mk (time : Int) (micro : Nat) : Tag := toLex (time, micro)

/-- Sentinel tag denoting "no tag yet known"; below every proper tag. -/
def NEVER : WithBot Tag := ⊥

/-- Add a minimum-delay interval to a tag: the delay shifts the timestamp.
The NEVER sentinel absorbs addition, so an unknown tag stays unknown. -/
def tagAdd (t : WithBot Tag) (d : Int) : WithBot Tag :=
  WithBot.map (fun p => toLex ((ofLex p).1 + d, (ofLex p).2)) t

/-! ## Coordinator state -/

/-- Coordinator-side record for one federate.  The fields `completed` and
`next_event` embed the tag fields of `federate_t` in rti.h ("The largest
logical tag completed by the federate (or NEVER)" and "Most recent NET
received from the federate (or NEVER)").  `last_granted` is the coordinator's
"last granted" marker of spec section 4.3, and `grants` is the log of time
advance grants emitted to this federate, most recent first, recorded so that
the grant stream can be reasoned about. -/
structure Fed where
  completed : WithBot Tag
  next_event : WithBot Tag
  last_granted : WithBot Tag
  grants : List Tag

/-- Static dependency topology: for each federate id, its list of
(upstream federate id, minimum delay) pairs, embedding the `upstream` and
`upstream_delay` arrays of `federate_t` in rti.h. -/
def Topology := Nat → List (Nat × Int)

/-- Registry of all federate records, indexed by federate id. -/
structure RTIState where
  feds : Nat → Fed

/-- Initial record: all tags NEVER, no grants emitted. -/
def initFed : Fed := ⟨⊥, ⊥, ⊥, []⟩

/-- Initial coordinator state: every federate record is initial. -/
def initState : RTIState := ⟨fun _ => initFed⟩

/-- Modelled from the spec: the Time-Advance Coordinator of section 4.3 is not
part of the sources (only rti.h is); its admissible bound for federate i is
`min(F.next_event, min over (U, delay) in F.upstream of (U.completed + delay))`,
where a NEVER contribution makes the bound NEVER (unknown is never treated as
a valid bound). -/
def computeBound (topo : Topology) (s : RTIState) (i : Nat) : WithBot Tag :=
  (topo i).foldl (fun acc p => min acc (tagAdd ((s.feds p.1).completed) p.2))
    ((s.feds i).next_event)

/-- Observable actions of the coordinator model: a federate reports its next
event tag (NEXT_EVENT_TIME), reports a completed tag (LOGICAL_TIME_COMPLETE),
or the coordinator emits a time advance grant (TIME_ADVANCE_GRANT). -/
inductive RTIAction where
  | net (i : Nat) (t : Tag)
  | ltc (i : Nat) (t : Tag)
  | grant (i : Nat) (t : Tag)

/-- Modelled from the spec: one transition of the coordinator (the rti.h
header documents the messages; the handling code is not in the sources).
A NET report carries the earliest pending event, which is never below the
federate's completed tag; an LTC report is monotone and never exceeds the
announced next event (spec section 3 federate contract); a grant is emitted
only when the admissible bound strictly exceeds the last granted tag (spec
section 4.3), updating the marker and the grant log. -/
inductive Step (topo : Topology) : RTIState → RTIAction → RTIState → Prop where
  | net (s : RTIState) (i : Nat) (t : Tag) :
      (s.feds i).completed ≤ (t : WithBot Tag) →
      Step topo s (.net i t)
        ⟨Function.update s.feds i { s.feds i with next_event := (t : WithBot Tag) }⟩
  | ltc (s : RTIState) (i : Nat) (t : Tag) :
      (s.feds i).completed ≤ (t : WithBot Tag) →
      (t : WithBot Tag) ≤ (s.feds i).next_event →
      Step topo s (.ltc i t)
        ⟨Function.update s.feds i { s.feds i with completed := (t : WithBot Tag) }⟩
  | grant (s : RTIState) (i : Nat) (t : Tag) :
      computeBound topo s i = (t : WithBot Tag) →
      (s.feds i).last_granted < (t : WithBot Tag) →
      Step topo s (.grant i t)
        ⟨Function.update s.feds i
          { s.feds i with last_granted := (t : WithBot Tag), grants := t :: (s.feds i).grants }⟩

/-- States reachable from the initial coordinator state. -/
inductive Reachable (topo : Topology) : RTIState → Prop where
  | init : Reachable topo initState
  | step (s : RTIState) (a : RTIAction) (s' : RTIState) :
      Reachable topo s → Step topo s a s' → Reachable topo s'

/-! ## Bounds on the admissible-grant computation -/

/-- Folding min over a list never exceeds the start value. -/
theorem foldl_min_le_start {α β : Type*} [LinearOrder α] (f : β → α) :
    ∀ (l : List β) (a : α), l.foldl (fun acc b => min acc (f b)) a ≤ a
  | [], a => le_refl a
  | b :: l, a =>
      le_trans (foldl_min_le_start f l (min a (f b))) (min_le_left a (f b))

/-- Folding min over a list is at most the value of each list element. -/
theorem foldl_min_le_mem {α β : Type*} [LinearOrder α] (f : β → α) :
    ∀ (l : List β) (a : α) (b : β), b ∈ l →
      l.foldl (fun acc c => min acc (f c)) a ≤ f b
  | c :: l, a, b, h => by
      rcases List.mem_cons.mp h with h1 | h2
      · subst h1
        exact le_trans (foldl_min_le_start f l (min a (f b))) (min_le_right a (f b))
      · exact foldl_min_le_mem f l (min a (f c)) b h2

/-- The admissible bound never exceeds the federate's reported next event. -/
theorem computeBound_le_next_event (topo : Topology) (s : RTIState) (i : Nat) :
    computeBound topo s i ≤ (s.feds i).next_event :=
  foldl_min_le_start _ _ _

/-- The admissible bound never exceeds any upstream completed tag plus its delay. -/
theorem computeBound_le_upstream (topo : Topology) (s : RTIState) (i : Nat)
    (p : Nat × Int) (h : p ∈ topo i) :
    computeBound topo s i ≤ tagAdd ((s.feds p.1).completed) p.2 :=
  foldl_min_le_mem _ _ _ _ h

/-- Reading a federate record after an update of the registry. -/
theorem feds_update (f : Nat → Fed) (j : Nat) (r : Fed) (i : Nat) :
    (RTIState.mk (Function.update f j r)).feds i = if i = j then r else f i := by
  simp [Function.update_apply]

/-- C1: for every federate F and every Time Advance Grant emitted to F with
tag T, at the moment of emission T is at most F's last reported next_event
and, for every upstream dependency (U, delay) of F, T is at most U's
completed tag plus the delay. -/
theorem claim_C1_grant_bound (topo : Topology) (s : RTIState) (i : Nat) (t : Tag)
    (s' : RTIState) (h : Step topo s (.grant i t) s') :
    (t : WithBot Tag) ≤ (s.feds i).next_event ∧
    ∀ p ∈ topo i, (t : WithBot Tag) ≤ tagAdd ((s.feds p.1).completed) p.2 := by
  cases h with
  | grant i t hb hl =>
      refine ⟨?_, fun p hp => ?_⟩
      · rw [← hb]; exact computeBound_le_next_event topo s i
      · rw [← hb]; exact computeBound_le_upstream topo s i p hp

/-! ## Grant monotonicity -/

/-- Invariant on a federate record: the grant log (most recent first) is
strictly decreasing and every logged grant is bounded by the last-granted marker. -/
def grantLogOk (f : Fed) : Prop :=
  List.Chain' (fun a b : Tag => b < a) f.grants ∧
  ∀ a ∈ f.grants, (a : WithBot Tag) ≤ f.last_granted

/-- Every reachable state satisfies the grant-log invariant. -/
theorem reachable_grantLogOk (topo : Topology) (s : RTIState)
    (h : Reachable topo s) (i : Nat) : grantLogOk (s.feds i) := by
  induction h with
  | init =>
      simp only [grantLogOk, initState, initFed]
      exact ⟨List.chain'_nil, by simp⟩
  | step s a s' hr hstep ih =>
      cases hstep with
      | net j t _ =>
          rw [feds_update]
          by_cases hij : i = j
          · subst hij; rw [if_pos rfl]; exact ih
          · rw [if_neg hij]; exact ih
      | ltc j t _ _ =>
          rw [feds_update]
          by_cases hij : i = j
          · subst hij; rw [if_pos rfl]; exact ih
          · rw [if_neg hij]; exact ih
      | grant j t hb hl =>
          rw [feds_update]
          by_cases hij : i = j
          · subst hij
            rw [if_pos rfl]
            simp only [grantLogOk] at ih ⊢
            obtain ⟨hchain, hle⟩ := ih
            constructor
            · refine List.chain'_cons'.mpr ⟨?_, hchain⟩
              intro b hb2
              have hmem : b ∈ (s.feds i).grants := List.mem_of_mem_head? hb2
              exact WithBot.coe_lt_coe.mp (lt_of_le_of_lt (hle b hmem) hl)
            · intro a ha
              rcases List.mem_cons.mp ha with h1 | h2
              · subst h1; exact le_refl _
              · exact le_of_lt (lt_of_le_of_lt (hle a h2) hl)
          · rw [if_neg hij]; exact ih

/-- C2: for every single federate, the sequence of Time Advance Grant tags
emitted to it over time (its grant log in chronological order) is
non-decreasing, and when the computed admissible bound equals the last
granted tag no grant step is possible at all. -/
theorem claim_C2_grant_monotone (topo : Topology) (s : RTIState)
    (h : Reachable topo s) :
    (∀ i, List.Chain' (fun a b : Tag => a ≤ b) ((s.feds i).grants.reverse)) ∧
    (∀ i t s', computeBound topo s i = (s.feds i).last_granted →
      ¬ Step topo s (.grant i t) s') := by
  constructor
  · intro i
    have hchain := (reachable_grantLogOk topo s h i).1
    have h2 : List.Chain' (fun a b : Tag => a < b) ((s.feds i).grants.reverse) := by
      rw [List.chain'_reverse]; exact hchain
    exact h2.imp fun a b hab => le_of_lt hab
  · intro i t s' heq hstep
    cases hstep with
    | grant i t hb hl =>
        rw [heq] at hb
        rw [← hb] at hl
        exact lt_irrefl _ hl

/-! ## The completed-tag invariant -/

/-- Every reachable state has each federate's completed tag at most its
reported next-event tag. -/
theorem reachable_completed_le_next (topo : Topology) (s : RTIState)
    (h : Reachable topo s) (i : Nat) :
    (s.feds i).completed ≤ (s.feds i).next_event := by
  induction h with
  | init => exact le_refl _
  | step s a s' hr hstep ih =>
      cases hstep with
      | net j t hle =>
          rw [feds_update]
          by_cases hij : i = j
          · subst hij; rw [if_pos rfl]; exact hle
          · rw [if_neg hij]; exact ih
      | ltc j t hc hn =>
          rw [feds_update]
          by_cases hij : i = j
          · subst hij; rw [if_pos rfl]; exact hn
          · rw [if_neg hij]; exact ih
      | grant j t hb hl =>
          rw [feds_update]
          by_cases hij : i = j
          · subst hij; rw [if_pos rfl]; exact ih
          · rw [if_neg hij]; exact ih

/-- C3: for every federate F, at every reachable state of the coordinator,
if F's completed tag and F's next_event tag are both different from the
NEVER sentinel, then F.completed is at most F.next_event. -/
theorem claim_C3_completed_le_next_event (topo : Topology) (s : RTIState)
    (h : Reachable topo s) (i : Nat)
    (h1 : (s.feds i).completed ≠ NEVER) (h2 : (s.feds i).next_event ≠ NEVER) :
    (s.feds i).completed ≤ (s.feds i).next_event :=
  reachable_completed_le_next topo s h i

/-! ## Concrete instantiation of the coordinator model -/

/-- Topology with no upstream dependencies, for concrete runs. -/
def topo0 : Topology := fun _ => []

/-- State after federate 0 reports next event (100, 0) from the initial state. -/
def wts1 : RTIState :=
  ⟨Function.update initState.feds 0
    { initState.feds 0 with next_event := ((Tag.mk 100 0 : Tag) : WithBot Tag) }⟩

/-- State after the coordinator additionally grants (100, 0) to federate 0. -/
def wts2 : RTIState :=
  ⟨Function.update wts1.feds 0
    { wts1.feds 0 with last_granted := ((Tag.mk 100 0 : Tag) : WithBot Tag),
                       grants := Tag.mk 100 0 :: (wts1.feds 0).grants }⟩

/-- State after federate 0 additionally reports completion of (100, 0). -/
def wts3 : RTIState :=
  ⟨Function.update wts2.feds 0
    { wts2.feds 0 with completed := ((Tag.mk 100 0 : Tag) : WithBot Tag) }⟩

/-- The concrete three-step run is a run of the coordinator model. -/
theorem wts3_reachable : Reachable topo0 wts3 :=
  Reachable.step wts2 (.ltc 0 (Tag.mk 100 0)) wts3
    (Reachable.step wts1 (.grant 0 (Tag.mk 100 0)) wts2
      (Reachable.step initState (.net 0 (Tag.mk 100 0)) wts1
        Reachable.init
        (Step.net initState 0 (Tag.mk 100 0) (by decide)))
      (Step.grant wts1 0 (Tag.mk 100 0) (by decide) (by decide)))
    (Step.ltc wts2 0 (Tag.mk 100 0) (by decide) (by decide))

/-- C1 witness: the grant of (100, 0) emitted to federate 0 in the concrete
run respects its next-event bound and (vacuously) all upstream bounds. -/
theorem claim_C1_grant_bound_witness :
    ((Tag.mk 100 0 : Tag) : WithBot Tag) ≤ (wts1.feds 0).next_event ∧
    ∀ p ∈ topo0 0,
      ((Tag.mk 100 0 : Tag) : WithBot Tag) ≤ tagAdd ((wts1.feds p.1).completed) p.2 :=
  claim_C1_grant_bound topo0 wts1 0 (Tag.mk 100 0) wts2
    (Step.grant wts1 0 (Tag.mk 100 0) (by decide) (by decide))

/-- C2 witness: in the concrete reachable state the grant log of every
federate is chronologically non-decreasing, and no grant step can repeat
the bound already granted. -/
theorem claim_C2_grant_monotone_witness :
    (∀ i, List.Chain' (fun a b : Tag => a ≤ b) ((wts3.feds i).grants.reverse)) ∧
    (∀ i t s', computeBound topo0 wts3 i = (wts3.feds i).last_granted →
      ¬ Step topo0 wts3 (.grant i t) s') :=
  claim_C2_grant_monotone topo0 wts3 wts3_reachable

/-- C3 witness: in the concrete reachable state federate 0 has completed
(100, 0) and next event (100, 0), both different from NEVER, and completed
does not exceed next event. -/
theorem claim_C3_completed_le_next_event_witness :
    (wts3.feds 0).completed ≤ (wts3.feds 0).next_event :=
  claim_C3_completed_le_next_event topo0 wts3 wts3_reachable 0
    (by decide) (by decide)

/-! ## Stop negotiation (spec section 4.4; STOP_REQUEST / STOP_REQUEST_REPLY /
STOP_GRANTED messages of rti.h lines 197-234) -/

/-- One event observed by the stop-negotiation protocol: a federate's
STOP_REQUEST_REPLY carrying its current tag, or a resignation carrying the
federate's last known completed tag (possibly NEVER). -/
inductive StopEvent where
  | reply (i : Nat) (t : Tag)
  | resign (i : Nat) (c : WithBot Tag)

/-- Federate id of a stop-negotiation event. -/
def StopEvent.fid : StopEvent → Nat
  | .reply i _ => i
  | .resign i _ => i

/-- Tag contributed by a stop-negotiation event: the reported tag of a reply,
or the last known completed tag of a resigning federate. -/
def StopEvent.tag : StopEvent → WithBot Tag
  | .reply _ t => (t : WithBot Tag)
  | .resign _ c => c

/-- Global stop-negotiation state: the running stop-tag candidate and the set
of federate ids not yet counted (`pending_replies`). -/
structure StopState where
  candidate : WithBot Tag
  pending : Finset Nat

/-- Modelled from the spec: the coordinator's processing of one
stop-negotiation event (section 4.4; the handling code is not in the
sources, rti.h lines 197-234 document the algorithm).  A reply from a
still-pending federate folds its tag into the candidate via max and removes
the federate from pending; an event from an already-counted federate is
ignored; a resignation counts as an implicit reply with the last known
completed tag. -/
def stopStep (s : StopState) (e : StopEvent) : StopState :=
  if e.fid ∈ s.pending then
    { candidate := max s.candidate e.tag, pending := s.pending.erase e.fid }
  else s

/-- Run the stop negotiation over a sequence of events. -/
def runStop (s : StopState) (es : List StopEvent) : StopState :=
  es.foldl stopStep s

/-- Modelled from the spec: initial stop-negotiation state when the first
STOP_REQUEST with proposed tag p arrives and the coordinator broadcasts the
request to the set P of not-yet-replied connected federates. -/
def initStop (p : Tag) (P : Finset Nat) : StopState := ⟨(p : WithBot Tag), P⟩

/-- STOP_GRANTED is broadcast exactly when no replies are pending. -/
def stopGranted (s : StopState) : Prop := s.pending = ∅

/-- Folding max over a list is at least the start value. -/
theorem foldl_max_ge_start {α β : Type*} [LinearOrder α] (f : β → α) :
    ∀ (l : List β) (a : α), a ≤ l.foldl (fun acc b => max acc (f b)) a
  | [], a => le_refl a
  | b :: l, a =>
      le_trans (le_max_left a (f b)) (foldl_max_ge_start f l (max a (f b)))

/-- Folding max over a list is at least the value of each list element. -/
theorem foldl_max_ge_mem {α β : Type*} [LinearOrder α] (f : β → α) :
    ∀ (l : List β) (a : α) (b : β), b ∈ l →
      f b ≤ l.foldl (fun acc c => max acc (f c)) a
  | c :: l, a, b, h => by
      rcases List.mem_cons.mp h with h1 | h2
      · subst h1
        exact le_trans (le_max_right a (f b)) (foldl_max_ge_start f l (max a (f b)))
      · exact foldl_max_ge_mem f l (max a (f c)) b h2

/-- When each event comes from a distinct still-pending federate, the final
candidate is the max-fold of all contributed tags over the proposed tag. -/
theorem runStop_candidate_eq :
    ∀ (es : List StopEvent) (s : StopState), (es.map StopEvent.fid).Nodup →
      (∀ e ∈ es, e.fid ∈ s.pending) →
      (runStop s es).candidate = es.foldl (fun c e => max c e.tag) s.candidate := by
  intro es
  induction es with
  | nil => intro s _ _; rfl
  | cons e es ih =>
      intro s hnd hsub
      have hin : e.fid ∈ s.pending := hsub e (List.mem_cons_self e es)
      have hstep : stopStep s e = ⟨max s.candidate e.tag, s.pending.erase e.fid⟩ := by
        simp [stopStep, hin]
      rw [List.map_cons] at hnd
      have hnd2 := List.nodup_cons.mp hnd
      have hne : ∀ f ∈ es, StopEvent.fid f ≠ e.fid := by
        intro f hf heq
        have hmem : StopEvent.fid f ∈ es.map StopEvent.fid :=
          List.mem_map.mpr ⟨f, hf, rfl⟩
        exact hnd2.1 (heq ▸ hmem)
      have hsub2 : ∀ f ∈ es, StopEvent.fid f ∈ (stopStep s e).pending := by
        intro f hf
        rw [hstep]
        exact Finset.mem_erase.mpr ⟨hne f hf, hsub f (List.mem_cons_of_mem e hf)⟩
      show (runStop (stopStep s e) es).candidate = _
      rw [ih (stopStep s e) hnd2.2 hsub2, hstep]
      rfl

/-- The final pending set is the initial one minus all event senders. -/
theorem runStop_pending :
    ∀ (es : List StopEvent) (s : StopState),
      (runStop s es).pending = s.pending \ (es.map StopEvent.fid).toFinset := by
  intro es
  induction es with
  | nil => intro s; simp [runStop]
  | cons e es ih =>
      intro s
      show (runStop (stopStep s e) es).pending = _
      rw [ih (stopStep s e)]
      have hp : (stopStep s e).pending = s.pending.erase e.fid := by
        by_cases hin : e.fid ∈ s.pending
        · simp [stopStep, hin]
        · simp [stopStep, hin, Finset.erase_eq_of_not_mem hin]
      rw [hp]
      ext x
      simp only [Finset.mem_sdiff, Finset.mem_erase, List.mem_toFinset,
        List.map_cons, List.mem_cons]
      tauto

/-- C4: in stop negotiation, the agreed stop tag is the proposed tag with all
reply tags folded in as max(candidate, reply_tag); it is at least the
proposed tag and every reply's reported tag; and STOP_GRANTED is broadcast
exactly when every pending connected federate has either replied or
resigned. -/
theorem claim_C4_stop_negotiation (p : Tag) (P : Finset Nat) (es : List StopEvent)
    (hnd : (es.map StopEvent.fid).Nodup)
    (hsub : ∀ e ∈ es, e.fid ∈ P) :
    (runStop (initStop p P) es).candidate
        = es.foldl (fun c e => max c e.tag) ((p : Tag) : WithBot Tag) ∧
    ((p : Tag) : WithBot Tag) ≤ (runStop (initStop p P) es).candidate ∧
    (∀ e ∈ es, e.tag ≤ (runStop (initStop p P) es).candidate) ∧
    (stopGranted (runStop (initStop p P) es) ↔ ∀ i ∈ P, ∃ e ∈ es, e.fid = i) := by
  have hcand := runStop_candidate_eq es (initStop p P) hnd hsub
  refine ⟨hcand, ?_, ?_, ?_⟩
  · rw [hcand]; exact foldl_max_ge_start StopEvent.tag es _
  · intro e he; rw [hcand]; exact foldl_max_ge_mem StopEvent.tag es _ e he
  · simp only [stopGranted]
    rw [runStop_pending es (initStop p P)]
    show P \ _ = ∅ ↔ _
    rw [Finset.sdiff_eq_empty_iff_subset]
    constructor
    · intro hss i hi
      have hmem := hss hi
      rw [List.mem_toFinset] at hmem
      obtain ⟨e, he, hfe⟩ := List.mem_map.mp hmem
      exact ⟨e, he, hfe⟩
    · intro hall i hi
      obtain ⟨e, he, hfe⟩ := hall i hi
      rw [List.mem_toFinset]
      exact List.mem_map.mpr ⟨e, he, hfe⟩

/-- C4 witness: with proposed tag (500, 0) and the single other connected
federate 1 replying with (480, 2), the agreed tag is the max fold, bounds
the reply, and STOP_GRANTED fires since all pending federates replied. -/
theorem claim_C4_stop_negotiation_witness :
    (runStop (initStop (Tag.mk 500 0) {1}) [StopEvent.reply 1 (Tag.mk 480 2)]).candidate
        = [StopEvent.reply 1 (Tag.mk 480 2)].foldl (fun c e => max c e.tag)
            ((Tag.mk 500 0 : Tag) : WithBot Tag) ∧
    ((Tag.mk 500 0 : Tag) : WithBot Tag)
        ≤ (runStop (initStop (Tag.mk 500 0) {1})
            [StopEvent.reply 1 (Tag.mk 480 2)]).candidate ∧
    (∀ e ∈ [StopEvent.reply 1 (Tag.mk 480 2)],
      e.tag ≤ (runStop (initStop (Tag.mk 500 0) {1})
        [StopEvent.reply 1 (Tag.mk 480 2)]).candidate) ∧
    (stopGranted (runStop (initStop (Tag.mk 500 0) {1})
        [StopEvent.reply 1 (Tag.mk 480 2)]) ↔
      ∀ i ∈ ({1} : Finset Nat), ∃ e ∈ [StopEvent.reply 1 (Tag.mk 480 2)], e.fid = i) :=
  claim_C4_stop_negotiation (Tag.mk 500 0) {1} [StopEvent.reply 1 (Tag.mk 480 2)]
    (by decide) (by decide)

/-! ## Join handshake (spec section 4.2; FED_ID message and rejection codes
of rti.h) -/

/-- Federation identifier as transmitted on the wire: a sequence of bytes
(the FED_ID message carries a one-byte length N and then N bytes of
federation id). -/
abbrev FederationId := List Nat

/-- Response of the coordinator to a join (FED_ID) message: ACK, or REJECT
with a one-byte reason code. -/
inductive JoinResponse where
  | ack
  | reject (code : Nat)
deriving DecidableEq, Repr

/-- Modelled from the spec: validation of a join message (section 4.2; the
handshake code is not in the sources, rti.h documents the FED_ID message and
the rejection codes).  Checks in order: the federation id must match the
configured one (else REJECT with FEDERATION_ID_DOES_NOT_MATCH); the federate
id must lie in the configured range [0, n) (else REJECT with
FEDERATE_ID_OUT_OF_RANGE); the federate id must not already be connected
(else REJECT with FEDERATE_ID_IN_USE); otherwise ACK. -/
def handleJoin (cfg : FederationId) (n : Nat) (connected : Finset Nat)
    (fid : FederationId) (i : Nat) : JoinResponse :=
  if fid ≠ cfg then .reject FEDERATION_ID_DOES_NOT_MATCH
  else if n ≤ i then .reject FEDERATE_ID_OUT_OF_RANGE
  else if i ∈ connected then .reject FEDERATE_ID_IN_USE
  else .ack

/-- Modelled from the spec: a successful join adds the federate id to the
connected set. -/
def applyJoin (connected : Finset Nat) (i : Nat) : Finset Nat := insert i connected

/-- Modelled from the spec: a clean RESIGN removes the federate id from the
connected set (section 4.2). -/
def applyResign (connected : Finset Nat) (i : Nat) : Finset Nat := connected.erase i

/-- C5 counterexample: the claim states that a join with the configured
federation id and a federate id that is not currently connected yields ACK.
With configured range of 2 federates, federate id 5 is not connected, yet
the join is rejected with FEDERATE_ID_OUT_OF_RANGE, not acknowledged. -/
theorem claim_C5_counterexample :
    (5 : Nat) ∉ (∅ : Finset Nat) ∧
    handleJoin [7] 2 ∅ [7] 5 ≠ JoinResponse.ack ∧
    handleJoin [7] 2 ∅ [7] 5 = JoinResponse.reject FEDERATE_ID_OUT_OF_RANGE := by
  decide

/-- C5 (amended): for every join attempt carrying the configured federation
id and an in-range federate id: if the id is not currently connected the
coordinator replies ACK; if it is already connected the coordinator replies
REJECT with reason FEDERATE_ID_IN_USE (code 2); and after a clean RESIGN the
same federate id joins again successfully with ACK. -/
theorem claim_C5_join_round_trip (cfg : FederationId) (n : Nat)
    (connected : Finset Nat) (i : Nat) (hrange : i < n) :
    (i ∉ connected → handleJoin cfg n connected cfg i = JoinResponse.ack) ∧
    (i ∈ connected → handleJoin cfg n connected cfg i
        = JoinResponse.reject FEDERATE_ID_IN_USE) ∧
    handleJoin cfg n (applyResign connected i) cfg i = JoinResponse.ack := by
  have h1 : ¬ (cfg ≠ cfg) := fun h => h rfl
  have h2 : ¬ (n ≤ i) := not_le.mpr hrange
  refine ⟨?_, ?_, ?_⟩
  · intro hni
    unfold handleJoin
    rw [if_neg h1, if_neg h2, if_neg hni]
  · intro hin
    unfold handleJoin
    rw [if_neg h1, if_neg h2, if_pos hin]
  · unfold handleJoin applyResign
    rw [if_neg h1, if_neg h2, if_neg (Finset.not_mem_erase i connected)]

/-- C5 witness: with federation id [7], two configured federates and
federate 0 connected, federate 1 is acknowledged, a duplicate of a connected
id would be rejected with code 2, and rejoining after resignation succeeds. -/
theorem claim_C5_join_round_trip_witness :
    ((1 : Nat) ∉ ({0} : Finset Nat) →
      handleJoin [7] 2 {0} [7] 1 = JoinResponse.ack) ∧
    ((1 : Nat) ∈ ({0} : Finset Nat) →
      handleJoin [7] 2 {0} [7] 1 = JoinResponse.reject FEDERATE_ID_IN_USE) ∧
    handleJoin [7] 2 (applyResign {0} 1) [7] 1 = JoinResponse.ack :=
  claim_C5_join_round_trip [7] 2 {0} 1 (by decide)

/-! ## Clock synchronization (spec section 4.5; rti.h lines 301-329 and
socket_stat_t) -/

/-- Guard-band purity check of a clock-sync cycle, embedded from the rti.h
documentation of the coded probe: with receive timestamps r1 (for T4) and r2
(for the coded probe) and coordinator send timestamps t1 and t2, the cycle
is pure when the magnitude of (r2 - r1) - (t2 - t1) is below the guard band. -/
def cyclePure (r1 r2 t1 t2 gb : Int) : Bool :=
  decide (|(r2 - r1) - (t2 - t1)| < gb)

/-- Physical-clock synchronization estimates for one federate: the current
offset and round-trip delay estimates. -/
structure SyncState where
  offset : Int
  delay : Int
deriving DecidableEq, Repr

/-- Round-trip delay estimate of one PTP exchange, embedded from the
socket_stat_t documentation in rti.h: (T4 - T1) - (T3 - T2). -/
def roundTripDelay (T1 T2 T3 T4 : Int) : Int := (T4 - T1) - (T3 - T2)

/-- Modelled from the spec: clock offset estimate of one PTP exchange
(section 4.5; the clock-sync handler is not in the sources): the average of
the two one-way clock differences. -/
def clockOffset (T1 T2 T3 T4 : Int) : Int := ((T2 - T1) + (T3 - T4)) / 2

/-- Modelled from the spec: processing of one complete clock-sync cycle
(section 4.5; the handler is not in the sources).  If the coded-probe guard
band is violated the sample is discarded and the estimates are unchanged;
otherwise the offset and delay estimates are updated from the sample. -/
def processCycle (s : SyncState) (T1 T2 T3 T4 r1 r2 t1 t2 gb : Int) : SyncState :=
  if cyclePure r1 r2 t1 t2 gb then
    { offset := clockOffset T1 T2 T3 T4, delay := roundTripDelay T1 T2 T3 T4 }
  else s

/-- C9: a clock-sync cycle is accepted exactly when the difference of the two
probe receive gaps and the two send gaps is within the guard band; a
violating sample is discarded with no offset or delay update, and the next
cycle proceeds from the unchanged state exactly as if the bad cycle had
never happened. -/
theorem claim_C9_guard_band (s : SyncState) (T1 T2 T3 T4 r1 r2 t1 t2 gb : Int)
    (hbad : ¬ (|(r2 - r1) - (t2 - t1)| < gb)) :
    (∀ q1 q2 u1 u2 g : Int,
      cyclePure q1 q2 u1 u2 g = true ↔ |(q2 - q1) - (u2 - u1)| < g) ∧
    cyclePure r1 r2 t1 t2 gb = false ∧
    processCycle s T1 T2 T3 T4 r1 r2 t1 t2 gb = s ∧
    (∀ U1 U2 U3 U4 q1 q2 u1 u2 : Int,
      processCycle (processCycle s T1 T2 T3 T4 r1 r2 t1 t2 gb)
          U1 U2 U3 U4 q1 q2 u1 u2 gb
        = processCycle s U1 U2 U3 U4 q1 q2 u1 u2 gb) := by
  have hiff : ∀ q1 q2 u1 u2 g : Int,
      cyclePure q1 q2 u1 u2 g = true ↔ |(q2 - q1) - (u2 - u1)| < g := by
    intro q1 q2 u1 u2 g
    simp [cyclePure]
  have hfalse : cyclePure r1 r2 t1 t2 gb = false := by
    simp [cyclePure, hbad]
  have hid : processCycle s T1 T2 T3 T4 r1 r2 t1 t2 gb = s := by
    unfold processCycle
    rw [hfalse]
    simp
  refine ⟨hiff, hfalse, hid, ?_⟩
  intro U1 U2 U3 U4 q1 q2 u1 u2
  rw [hid]

/-- C9 witness: with receive gap 100, send gap 0 and guard band 50, the
cycle is rejected, the estimates ⟨0, 0⟩ are untouched, and any subsequent
cycle behaves as from the original state. -/
theorem claim_C9_guard_band_witness :
    (∀ q1 q2 u1 u2 g : Int,
      cyclePure q1 q2 u1 u2 g = true ↔ |(q2 - q1) - (u2 - u1)| < g) ∧
    cyclePure 0 100 0 0 50 = false ∧
    processCycle ⟨0, 0⟩ 0 0 0 0 0 100 0 0 50 = ⟨0, 0⟩ ∧
    (∀ U1 U2 U3 U4 q1 q2 u1 u2 : Int,
      processCycle (processCycle ⟨0, 0⟩ 0 0 0 0 0 100 0 0 50)
          U1 U2 U3 U4 q1 q2 u1 u2 50
        = processCycle ⟨0, 0⟩ U1 U2 U3 U4 q1 q2 u1 u2 50) :=
  claim_C9_guard_band ⟨0, 0⟩ 0 0 0 0 0 100 0 0 50 (by decide)

/-! ## Message forwarding (rti.h lines 147-169: MESSAGE and TIMED_MESSAGE) -/

/-- Big-endian encoding of a natural number into w bytes (multi-byte wire
fields are big-endian). -/
def natToBytes : Nat → Nat → List Nat
  | 0, _ => []
  | w + 1, n => natToBytes w (n / 256) ++ [n % 256]

/-- Big-endian decoding of a byte list into a natural number. -/
def bytesToNat (bs : List Nat) : Nat := bs.foldl (fun acc b => acc * 256 + b) 0

/-- Length of the big-endian encoding. -/
theorem natToBytes_length : ∀ (w n : Nat), (natToBytes w n).length = w
  | 0, _ => rfl
  | w + 1, n => by
      show ((natToBytes w (n / 256)) ++ [n % 256]).length = w + 1
      rw [List.length_append, natToBytes_length w (n / 256)]
      rfl

/-- Decoding after appending one byte. -/
theorem bytesToNat_append (xs : List Nat) (b : Nat) :
    bytesToNat (xs ++ [b]) = bytesToNat xs * 256 + b := by
  unfold bytesToNat
  rw [List.foldl_append]
  rfl

/-- Big-endian decoding inverts encoding for values that fit in w bytes. -/
theorem bytesToNat_natToBytes : ∀ (w n : Nat), n < 256 ^ w →
    bytesToNat (natToBytes w n) = n
  | 0, n, h => by
      have hn : n = 0 := Nat.lt_one_iff.mp h
      subst hn; rfl
  | w + 1, n, h => by
      show bytesToNat (natToBytes w (n / 256) ++ [n % 256]) = n
      rw [bytesToNat_append, bytesToNat_natToBytes w (n / 256) (by
        rw [Nat.div_lt_iff_lt_mul (by norm_num : 0 < 256)]
        rw [← pow_succ 256 w]
        exact h)]
      omega

/-- Two's-complement big-endian encoding of a 64-bit signed timestamp. -/
def intToBytes8 (t : Int) : List Nat := natToBytes 8 (t % 2 ^ 64).toNat

/-- Decoding of a 64-bit two's-complement big-endian timestamp. -/
def bytesToInt8 (bs : List Nat) : Int :=
  if bytesToNat bs < 2 ^ 63 then (bytesToNat bs : Int)
  else (bytesToNat bs : Int) - 2 ^ 64

/-- Timestamp decoding inverts encoding on the signed 64-bit range. -/
theorem bytesToInt8_intToBytes8 (t : Int) (h1 : -(2 ^ 63) ≤ t) (h2 : t < 2 ^ 63) :
    bytesToInt8 (intToBytes8 t) = t := by
  have hp64 : (2 : Int) ^ 64 = 18446744073709551616 := by norm_num
  have hp63 : (2 : Int) ^ 63 = 9223372036854775808 := by norm_num
  have hb : (256 : Nat) ^ 8 = 18446744073709551616 := by norm_num
  have hn63 : (2 : Nat) ^ 63 = 9223372036854775808 := by norm_num
  rw [hp63] at h1 h2
  have hbound : (t % 2 ^ 64).toNat < 256 ^ 8 := by rw [hp64, hb]; omega
  have hrw := bytesToNat_natToBytes 8 (t % 2 ^ 64).toNat hbound
  unfold intToBytes8 bytesToInt8
  rw [hrw, hp64, hn63]
  split
  · omega
  · omega

/-- A timed application message as documented for TIMED_MESSAGE in rti.h:
destination port id (2 bytes), destination federate id (2 bytes), payload
length (4 bytes), timestamp (8 bytes), sender microstep (4 bytes), payload. -/
structure TimedMsg where
  destPort : Nat
  destFed : Nat
  time : Int
  microstep : Nat
  payload : List Nat
deriving DecidableEq, Repr

/-- Wire encoding of a TIMED_MESSAGE, embedded from rti.h lines 161-169:
the type byte, then 2-byte destination port id, 2-byte destination federate
id, 4-byte message length, 8-byte timestamp, 4-byte microstep, then the
message bytes, all big-endian. -/
def encodeTimed (m : TimedMsg) : List Nat :=
  TIMED_MESSAGE ::
    (natToBytes 2 m.destPort ++ (natToBytes 2 m.destFed ++
      (natToBytes 4 m.payload.length ++ (intToBytes8 m.time ++
        (natToBytes 4 m.microstep ++ m.payload)))))

/-- Wire decoding of a TIMED_MESSAGE: inverse parse of the rti.h layout,
rejecting messages whose declared length disagrees with the actual payload. -/
def decodeTimed (bs : List Nat) : Option TimedMsg :=
  match bs with
  | b :: rest =>
      if b = TIMED_MESSAGE ∧ (rest.drop 20).length = bytesToNat ((rest.drop 4).take 4) then
        some ⟨bytesToNat (rest.take 2), bytesToNat ((rest.drop 2).take 2),
              bytesToInt8 ((rest.drop 8).take 8), bytesToNat ((rest.drop 16).take 4),
              rest.drop 20⟩
      else none
  | [] => none

/-- Modelled from the spec: RTI forwarding of a timed message (the
forwarding code is not in the sources): the RTI reads the destination
federate id from the header and forwards the received byte sequence
verbatim to that federate. -/
def routeTimed (bs : List Nat) : Option (Nat × List Nat) :=
  match decodeTimed bs with
  | some msg => some (msg.destFed, bs)
  | none => none

/-- Message type byte used for application messages on every connection,
physical connections included, embedded from the rti.h note on MESSAGE:
"This is currently not used. All messages are timed, even on physical
connections, because if after is used, the message may preserve the logical
timestamp rather than using the physical time." -/
def physicalDeliveryType : Nat := TIMED_MESSAGE

/-- Decoding inverts encoding for in-range timed messages: the destination,
timestamp, microstep and payload all survive the wire unchanged. -/
theorem decodeTimed_encodeTimed (m : TimedMsg)
    (hp : m.destPort < 2 ^ 16) (hf : m.destFed < 2 ^ 16)
    (hl : m.payload.length < 2 ^ 32) (hm : m.microstep < 2 ^ 32)
    (ht1 : -(2 ^ 63) ≤ m.time) (ht2 : m.time < 2 ^ 63) :
    decodeTimed (encodeTimed m) = some m := by
  have e2 : (256 : Nat) ^ 2 = 2 ^ 16 := by norm_num
  have e4 : (256 : Nat) ^ 4 = 2 ^ 32 := by norm_num
  have hA : (natToBytes 2 m.destPort).length = 2 := natToBytes_length 2 _
  have hB : (natToBytes 2 m.destFed).length = 2 := natToBytes_length 2 _
  have hC : (natToBytes 4 m.payload.length).length = 4 := natToBytes_length 4 _
  have hD : (intToBytes8 m.time).length = 8 := natToBytes_length 8 _
  have hE : (natToBytes 4 m.microstep).length = 4 := natToBytes_length 4 _
  have hrA : bytesToNat (natToBytes 2 m.destPort) = m.destPort :=
    bytesToNat_natToBytes 2 _ (by rw [e2]; exact hp)
  have hrB : bytesToNat (natToBytes 2 m.destFed) = m.destFed :=
    bytesToNat_natToBytes 2 _ (by rw [e2]; exact hf)
  have hrC : bytesToNat (natToBytes 4 m.payload.length) = m.payload.length :=
    bytesToNat_natToBytes 4 _ (by rw [e4]; exact hl)
  have hrD : bytesToInt8 (intToBytes8 m.time) = m.time :=
    bytesToInt8_intToBytes8 m.time ht1 ht2
  have hrE : bytesToNat (natToBytes 4 m.microstep) = m.microstep :=
    bytesToNat_natToBytes 4 _ (by rw [e4]; exact hm)
  show decodeTimed (TIMED_MESSAGE ::
    (natToBytes 2 m.destPort ++ (natToBytes 2 m.destFed ++
      (natToBytes 4 m.payload.length ++ (intToBytes8 m.time ++
        (natToBytes 4 m.microstep ++ m.payload)))))) = some m
  have hd2 : (natToBytes 2 m.destPort ++ (natToBytes 2 m.destFed ++
      (natToBytes 4 m.payload.length ++ (intToBytes8 m.time ++
        (natToBytes 4 m.microstep ++ m.payload))))).drop 2
      = natToBytes 2 m.destFed ++ (natToBytes 4 m.payload.length ++
          (intToBytes8 m.time ++ (natToBytes 4 m.microstep ++ m.payload))) :=
    List.drop_left' hA
  have hd4 : (natToBytes 2 m.destPort ++ (natToBytes 2 m.destFed ++
      (natToBytes 4 m.payload.length ++ (intToBytes8 m.time ++
        (natToBytes 4 m.microstep ++ m.payload))))).drop 4
      = natToBytes 4 m.payload.length ++
          (intToBytes8 m.time ++ (natToBytes 4 m.microstep ++ m.payload)) := by
    rw [show (4 : Nat) = 2 + 2 from rfl, ← List.drop_drop, hd2]
    exact List.drop_left' hB
  have hd8 : (natToBytes 2 m.destPort ++ (natToBytes 2 m.destFed ++
      (natToBytes 4 m.payload.length ++ (intToBytes8 m.time ++
        (natToBytes 4 m.microstep ++ m.payload))))).drop 8
      = intToBytes8 m.time ++ (natToBytes 4 m.microstep ++ m.payload) := by
    rw [show (8 : Nat) = 4 + 4 from rfl, ← List.drop_drop, hd4]
    exact List.drop_left' hC
  have hd16 : (natToBytes 2 m.destPort ++ (natToBytes 2 m.destFed ++
      (natToBytes 4 m.payload.length ++ (intToBytes8 m.time ++
        (natToBytes 4 m.microstep ++ m.payload))))).drop 16
      = natToBytes 4 m.microstep ++ m.payload := by
    rw [show (16 : Nat) = 8 + 8 from rfl, ← List.drop_drop, hd8]
    exact List.drop_left' hD
  have hd20 : (natToBytes 2 m.destPort ++ (natToBytes 2 m.destFed ++
      (natToBytes 4 m.payload.length ++ (intToBytes8 m.time ++
        (natToBytes 4 m.microstep ++ m.payload))))).drop 20
      = m.payload := by
    rw [show (20 : Nat) = 16 + 4 from rfl, ← List.drop_drop, hd16]
    exact List.drop_left' hE
  simp only [decodeTimed]
  rw [if_pos ?hcond]
  case hcond =>
    refine ⟨trivial, ?_⟩
    rw [hd20, hd4, List.take_left' hC, hrC]
  rw [List.take_left' hA, hd2, List.take_left' hB, hd8, List.take_left' hD,
    hd16, List.take_left' hE, hd20, hrA, hrB, hrD, hrE]

/-- C10 counterexample: the claim states the untagged MESSAGE variant (type
byte 3) is used for unordered/physical delivery of application messages;
rti.h states MESSAGE "is currently not used" and that "all messages are
timed, even on physical connections", so the type byte used for physical
delivery is TIMED_MESSAGE (5), not MESSAGE (3). -/
theorem claim_C10_counterexample :
    physicalDeliveryType ≠ MESSAGE ∧ physicalDeliveryType = TIMED_MESSAGE := by
  decide

/-- C10 (amended): the protocol defines an untagged MESSAGE variant with
type byte 3, but it is currently unused: application messages are carried as
TIMED_MESSAGE even on physical connections.  Forwarding is verbatim: an
encoded timed message is routed to its destination federate with the byte
sequence unchanged, and decoding the forwarded bytes returns the sender's
timestamp, microstep and payload unchanged. -/
theorem claim_C10_message_forwarding (m : TimedMsg)
    (hp : m.destPort < 2 ^ 16) (hf : m.destFed < 2 ^ 16)
    (hl : m.payload.length < 2 ^ 32) (hm : m.microstep < 2 ^ 32)
    (ht1 : -(2 ^ 63) ≤ m.time) (ht2 : m.time < 2 ^ 63) :
    MESSAGE = 3 ∧ physicalDeliveryType = TIMED_MESSAGE ∧
    routeTimed (encodeTimed m) = some (m.destFed, encodeTimed m) ∧
    decodeTimed (encodeTimed m) = some m := by
  have hdec := decodeTimed_encodeTimed m hp hf hl hm ht1 ht2
  refine ⟨rfl, rfl, ?_, hdec⟩
  unfold routeTimed
  rw [hdec]

/-- C10 witness: the concrete timed message to port 1, federate 2, tag
(100, 0), payload [42] is routed to federate 2 and decoded unchanged. -/
theorem claim_C10_message_forwarding_witness :
    MESSAGE = 3 ∧ physicalDeliveryType = TIMED_MESSAGE ∧
    routeTimed (encodeTimed ⟨1, 2, 100, 0, [42]⟩)
      = some ((⟨1, 2, 100, 0, [42]⟩ : TimedMsg).destFed,
              encodeTimed ⟨1, 2, 100, 0, [42]⟩) ∧
    decodeTimed (encodeTimed ⟨1, 2, 100, 0, [42]⟩)
      = some (⟨1, 2, 100, 0, [42]⟩ : TimedMsg) :=
  claim_C10_message_forwarding ⟨1, 2, 100, 0, [42]⟩
    (by decide) (by decide) (by decide) (by decide) (by decide) (by decide)
